import Mathlib

set_option maxHeartbeats 1000000

/- Shallow embedding of the two source files of this repository,
   src/models/stdp_pl_connection_hom.h and src/models/iaf_chs_2007.h.
   The C++ type double_t is modelled as the real numbers, integral types
   as Nat and Int, std::vector and std::deque as List, and a thrown
   exception as the error branch of an Except value. -/

/- ======================================================================
   Part 1: the plastic synapse, src/models/stdp_pl_connection_hom.h
   ====================================================================== -/

/-- Embedding of nest::STDPPLHomCommonProperties (lines 64-93): the data
members common to all connections, tau_plus_, lambda_, alpha_, mu_. -/
structure STDPPLHomCommonProperties where
  tau_plus_ : ℝ
  lambda_ : ℝ
  alpha_ : ℝ
  mu_ : ℝ

/-- Embedding of the external histentry record stored in the post-synaptic
spike history deque; the send loop only reads the spike time field t_. -/
structure histentry where
  t_ : ℝ

/-- Embedding of the per-connection data of nest::STDPPLConnectionHom
(line 182 and the base class ConnectionHetWD): the plastic weight weight_,
the presynaptic trace Kplus_, the delay delay_ in steps and the receptor
port rport_. -/
structure STDPPLConnectionHom where
  weight_ : ℝ
  Kplus_ : ℝ
  delay_ : ℕ
  rport_ : ℤ

/-- Embedding of STDPPLConnectionHom::facilitate_ (lines 187-191):
return w + (cp.lambda_ * std::pow(w, cp.mu_) * kplus), where std::pow on
doubles is modelled by the real power with real exponent. -/
noncomputable def facilitate_ (w kplus : ℝ) (cp : STDPPLHomCommonProperties) : ℝ :=
  w + cp.lambda_ * w ^ cp.mu_ * kplus

/-- Embedding of STDPPLConnectionHom::depress_ (lines 193-198):
new_w = w - (cp.lambda_ * cp.alpha_ * w * kminus), returning new_w when
new_w > 0.0 and 0.0 otherwise. -/
noncomputable def depress_ (w kminus : ℝ) (cp : STDPPLHomCommonProperties) : ℝ :=
  let new_w := w - cp.lambda_ * cp.alpha_ * w * kminus
  if new_w > 0 then new_w else 0

/-- External inputs of one STDPPLConnectionHom::send call: the stamp of the
event in ms (t_spike, line 219), the time of the last presynaptic spike
(the argument t_lastspike), the ms duration of one simulation step (so that
Time(Time::step(delay_)).get_ms() on line 223 is delay_ * msPerStep), and
the two read-only oracles of the target neuron, get_history (line 228,
returning the history entries of the queried window) and get_K_value
(line 242). -/
structure SendEnv where
  t_spike : ℝ
  t_lastspike : ℝ
  msPerStep : ℝ
  getHistory : ℝ → ℝ → List histentry
  getK : ℝ → ℝ

/-- Tags for the mutating and forwarding statements of send, in the order
the source executes them; used to record the execution order of the steps
of one send call. -/
inductive SendAction
  | facilitate
  | depress
  | forward
  | traceUpdate
deriving DecidableEq, BEq, Repr

/-- Embedding of the event fields written by send before the call e()
(lines 244-248): e.set_weight(weight_), e.set_delay(delay_),
e.set_rport(rport_). -/
structure ForwardedEvent where
  weight : ℝ
  delay : ℕ
  rport : ℤ

/-- Result of one send call: the connection after the call, the event as
forwarded by e(), and the log of the executed actions in source order. -/
structure SendResult where
  conn : STDPPLConnectionHom
  event : ForwardedEvent
  log : List SendAction

/-- Embedding of the while loop of send (lines 231-239): for each history
entry, minus_dt = t_lastspike - (start->t_ + dendritic_delay); when
minus_dt == 0 the entry is skipped (continue), otherwise
weight_ = facilitate_(weight_, Kplus_ * std::exp(minus_dt / cp.tau_plus_), cp).
Kplus_ is not modified inside the loop. -/
noncomputable def facilitationLoop (cp : STDPPLHomCommonProperties)
    (t_lastspike dendritic_delay Kplus : ℝ) : List histentry → ℝ → ℝ
  | [], w => w
  | h :: rest, w =>
    if t_lastspike - (h.t_ + dendritic_delay) = 0 then
      facilitationLoop cp t_lastspike dendritic_delay Kplus rest w
    else
      facilitationLoop cp t_lastspike dendritic_delay Kplus rest
        (facilitate_ w
          (Kplus * Real.exp ((t_lastspike - (h.t_ + dendritic_delay)) / cp.tau_plus_)) cp)

/-- Log of the facilitation loop (lines 231-239): one facilitate action per
history entry that is not skipped by the minus_dt == 0 test. -/
noncomputable def facilLog (t_lastspike dendritic_delay : ℝ) :
    List histentry → List SendAction
  | [] => []
  | h :: rest =>
    if t_lastspike - (h.t_ + dendritic_delay) = 0 then
      facilLog t_lastspike dendritic_delay rest
    else
      SendAction.facilitate :: facilLog t_lastspike dendritic_delay rest

/-- Weight of the connection after the facilitation loop of send and before
the depression step (the value of weight_ at line 241). -/
noncomputable def sendFacilWeight (c : STDPPLConnectionHom) (env : SendEnv)
    (cp : STDPPLHomCommonProperties) : ℝ :=
  facilitationLoop cp env.t_lastspike ((c.delay_ : ℝ) * env.msPerStep) c.Kplus_
    (env.getHistory (env.t_lastspike - (c.delay_ : ℝ) * env.msPerStep)
      (env.t_spike - (c.delay_ : ℝ) * env.msPerStep))
    c.weight_

/-- Embedding of STDPPLConnectionHom::send (lines 214-251). The statements
execute in source order: the facilitation loop over the queried history
(lines 231-239), one depression step with the trace value
get_K_value(t_spike - dendritic_delay) (line 242), the forwarding of the
event with the updated weight, the stored delay and the stored rport
(lines 244-248), and last the presynaptic trace update
Kplus_ = Kplus_ * exp((t_lastspike - t_spike) / tau_plus_) + 1.0
(line 250). The log field records that order. -/
noncomputable def send (c : STDPPLConnectionHom) (env : SendEnv)
    (cp : STDPPLHomCommonProperties) : SendResult :=
  let dendritic_delay := (c.delay_ : ℝ) * env.msPerStep
  let hist := env.getHistory (env.t_lastspike - dendritic_delay)
    (env.t_spike - dendritic_delay)
  let w1 := facilitationLoop cp env.t_lastspike dendritic_delay c.Kplus_ hist c.weight_
  let w2 := depress_ w1 (env.getK (env.t_spike - dendritic_delay)) cp
  { conn := { weight_ := w2,
              Kplus_ := c.Kplus_ * Real.exp ((env.t_lastspike - env.t_spike) / cp.tau_plus_) + 1,
              delay_ := c.delay_,
              rport_ := c.rport_ },
    event := { weight := w2, delay := c.delay_, rport := c.rport_ },
    log := facilLog env.t_lastspike dendritic_delay hist
           ++ [SendAction.depress, SendAction.forward, SendAction.traceUpdate] }

/-- Iterated send: the connection after a sequence of send calls, each with
its own external inputs. -/
noncomputable def sendMany (cp : STDPPLHomCommonProperties) :
    List SendEnv → STDPPLConnectionHom → STDPPLConnectionHom
  | [], c => c
  | env :: rest, c => sendMany cp rest (send c env cp).conn

/-- Order predicate on a send log: some forwarding action occurs strictly
after some trace update action. -/
def forwardAfterTraceUpdate (log : List SendAction) : Prop :=
  ∃ i j, i < j ∧ log.get? i = some SendAction.traceUpdate
    ∧ log.get? j = some SendAction.forward

/-- Order predicate on a send log: some forwarding action occurs strictly
before some trace update action. -/
def forwardBeforeTraceUpdate (log : List SendAction) : Prop :=
  ∃ i j, i < j ∧ log.get? i = some SendAction.forward
    ∧ log.get? j = some SendAction.traceUpdate

/- ======================================================================
   Part 2: the neuron, src/models/iaf_chs_2007.h
   ====================================================================== -/

/-- Error values of the embedded code: the exceptions UnknownReceptorType
(iaf_chs_2007.h line 288) and BadProperty (thrown by the set routines, see
the comment on line 317), and the NoiseExhausted condition of the spec for
a step past the end of the noise sequence. -/
inductive NestError
  | UnknownReceptorType (receptor_type : ℤ)
  | BadProperty
  | NoiseExhausted
deriving DecidableEq, Repr

deriving instance DecidableEq for Except

/-- Embedding of iaf_chs_2007::State_ (lines 145-159): the four state
variables i_syn_ex_, V_syn_, V_spike_, V_m_ and the noise cursor
position_. -/
structure State_ where
  i_syn_ex_ : ℚ
  V_syn_ : ℚ
  V_spike_ : ℚ
  V_m_ : ℚ
  position_ : ℕ
deriving DecidableEq, Repr

/-- Embedding of iaf_chs_2007::Parameters_ (lines 166-206): the scalar
parameters and the externally supplied noise sequence noise_. -/
structure Parameters_ where
  tau_epsp_ : ℚ
  tau_reset_ : ℚ
  E_L_ : ℚ
  U_th_ : ℚ
  U_epsp_ : ℚ
  U_reset_ : ℚ
  C_ : ℚ
  U_noise_ : ℚ
  noise_ : List ℚ
deriving DecidableEq, Repr

/-- Embedding of iaf_chs_2007::Variables_ (lines 232-249): the five
precomputed propagator coefficients of the time evolution operator. -/
structure Variables_ where
  P20_ : ℚ
  P11ex_ : ℚ
  P21ex_ : ℚ
  P22_ : ℚ
  P30_ : ℚ
deriving DecidableEq, Repr

/-- Embedding of the parameter update dictionary passed to set_status: an
optional new value for each settable scalar, an optional replacement noise
sequence, and two flags modelling whether the externally implemented
validations succeed: stateOk for State_::set (which throws BadProperty,
line 317) and archOk for Archiving_Node::set_status (whose internal
consistency the source comment on lines 319-322 waits for before the
commit). -/
structure Dictionary where
  tau_epsp_upd : Option ℚ
  tau_reset_upd : Option ℚ
  U_epsp_upd : Option ℚ
  U_reset_upd : Option ℚ
  U_noise_upd : Option ℚ
  noise_upd : Option (List ℚ)
  V_m_upd : Option ℚ
  stateOk : Bool
  archOk : Bool
deriving DecidableEq, Repr

/-- Modelled from the spec: the body of iaf_chs_2007::Parameters_::set is
not under src, only its declaration (lines 200-205) with the note that the
state is passed so that the position can be reset if the noise_ vector has
been filled with new data. Following the spec, it applies the updates
present in the dictionary to the parameter copy, resets the noise cursor of
the passed state to 0 exactly when the noise sequence is replaced, and
fails with BadProperty (the InvalidParameter condition of the spec) when a
time constant would become non-positive. The returned state is the passed
state after the call, reset applied whether or not the validation
succeeds, since the reset precedes the validation. -/
def Parameters_.set (d : Dictionary) (p : Parameters_) (s : State_) :
    Except NestError Parameters_ × State_ :=
  (let p1 : Parameters_ :=
    { tau_epsp_ := d.tau_epsp_upd.getD p.tau_epsp_,
      tau_reset_ := d.tau_reset_upd.getD p.tau_reset_,
      E_L_ := p.E_L_,
      U_th_ := p.U_th_,
      U_epsp_ := d.U_epsp_upd.getD p.U_epsp_,
      U_reset_ := d.U_reset_upd.getD p.U_reset_,
      C_ := p.C_,
      U_noise_ := d.U_noise_upd.getD p.U_noise_,
      noise_ := d.noise_upd.getD p.noise_ }
   if p1.tau_epsp_ ≤ 0 ∨ p1.tau_reset_ ≤ 0 then Except.error NestError.BadProperty
   else Except.ok p1,
   if d.noise_upd.isSome then { s with position_ := 0 } else s)

/-- Modelled from the spec: the body of iaf_chs_2007::State_::set is not
under src, only its declaration (line 158) and the call comment that it
throws if BadProperty (line 317). It updates the membrane potential from
the dictionary; the stateOk flag models whether its validation passes. -/
def State_.set (d : Dictionary) (s : State_) : Except NestError State_ :=
  if d.stateOk then Except.ok { s with V_m_ := d.V_m_upd.getD s.V_m_ }
  else Except.error NestError.BadProperty

/-- Modelled from the spec: Archiving_Node::set_status is external to this
repository; the archOk flag models whether the properties to be set in the
parent class are internally consistent (source comment, lines 319-322). -/
def archivingSetStatus (d : Dictionary) : Except NestError Unit :=
  if d.archOk then Except.ok () else Except.error NestError.BadProperty

/-- Embedding of iaf_chs_2007::set_status (lines 311-328). A temporary copy
ptmp of P_ is set from the dictionary, with the live S_ passed by reference
(ptmp.set(d, S_), line 315); then a temporary copy stmp of S_ is set; then
Archiving_Node::set_status runs; only if none of the three throws are the
temporaries committed with P_ = ptmp and S_ = stmp. A thrown exception
propagates, leaving P_ at its old value and S_ as Parameters_::set left it.
The result is the outcome together with the live (P_, S_) pair after the
call. -/
def set_status (d : Dictionary) (P : Parameters_) (S : State_) :
    Except NestError Unit × Parameters_ × State_ :=
  match (Parameters_.set d P S).1 with
  | Except.error e => (Except.error e, P, (Parameters_.set d P S).2)
  | Except.ok ptmp =>
    match State_.set d (Parameters_.set d P S).2 with
    | Except.error e => (Except.error e, P, (Parameters_.set d P S).2)
    | Except.ok stmp =>
      match archivingSetStatus d with
      | Except.error e => (Except.error e, P, (Parameters_.set d P S).2)
      | Except.ok _ => (Except.ok (), ptmp, stmp)

/-- Embedding of iaf_chs_2007::connect_sender for SpikeEvent
(lines 284-290): throw UnknownReceptorType(receptor_type) when
receptor_type != 0, return port 0 otherwise. -/
def connect_sender_SpikeEvent (receptor_type : ℤ) : Except NestError ℤ :=
  if receptor_type ≠ 0 then Except.error (NestError.UnknownReceptorType receptor_type)
  else Except.ok 0

/-- Embedding of iaf_chs_2007::check_connection (lines 275-282): builds a
SpikeEvent, calls check_event on the connection (a no-op for
STDPPLConnectionHom, line 174) and returns
c.get_target()->connect_sender(e, receptor_type); with an iaf_chs_2007
target this is connect_sender_SpikeEvent. This is the connection-setup
path; the send path never validates the receptor. -/
def check_connection (receptor_type : ℤ) : Except NestError ℤ :=
  connect_sender_SpikeEvent receptor_type

/-- Modelled from the spec: the body of iaf_chs_2007::update is not under
src, only its declaration (line 134). Per the spec, one step applies the
linear propagator coefficients to the four state variables in dependency
order, adds the buffered synaptic input to the synaptic current, adds
U_noise_ times the noise value read at the cursor to the membrane
potential and advances the cursor by one, failing with NoiseExhausted when
the cursor is past the end of the noise sequence; after the update the
spike flag is set when the membrane potential reaches threshold, and the
after-spike reset amplitude is added to the spike waveform component. -/
def step (P : Parameters_) (V : Variables_) (input current : ℚ) (s : State_) :
    Except NestError (State_ × Bool) :=
  match P.noise_.get? s.position_ with
  | none => Except.error NestError.NoiseExhausted
  | some nv =>
    let V_syn := V.P21ex_ * s.i_syn_ex_ + V.P22_ * s.V_syn_
    let i_syn := V.P11ex_ * s.i_syn_ex_ + input
    let V_spike := V.P30_ * s.V_spike_
    let V_m := V_syn + V_spike + V.P20_ * current + P.U_noise_ * nv
    let spiked := P.U_th_ ≤ V_m
    Except.ok ({ i_syn_ex_ := i_syn,
                 V_syn_ := V_syn,
                 V_spike_ := if P.U_th_ ≤ V_m then V_spike + P.U_reset_ else V_spike,
                 V_m_ := V_m,
                 position_ := s.position_ + 1 }, decide spiked)

/-- Iterated step with fixed buffered inputs: the state after n step calls,
or the error of the first failing call. -/
def stepN (P : Parameters_) (V : Variables_) (input current : ℚ) :
    ℕ → State_ → Except NestError State_
  | 0, s => Except.ok s
  | n + 1, s =>
    match step P V input current s with
    | Except.error e => Except.error e
    | Except.ok (s1, _) => stepN P V input current n s1

/- ======================================================================
   Concrete instances used by witnesses and counterexamples
   ====================================================================== -/

/-- Concrete connection: weight 1, trace 0, delay 1 step, rport 0. -/
noncomputable def c0 : STDPPLConnectionHom := ⟨1, 0, 1, 0⟩

/-- Concrete connection with weight exactly 0. -/
noncomputable def cZero : STDPPLConnectionHom := ⟨0, 0, 1, 0⟩

/-- Concrete send environment: both spike times 0, step of 1 ms, empty
post-synaptic history, zero post-synaptic trace. -/
noncomputable def env0 : SendEnv := ⟨0, 0, 1, fun _ _ => [], fun _ => 0⟩

/-- Concrete common properties with weight exponent mu_ = 0. -/
noncomputable def cp0 : STDPPLHomCommonProperties := ⟨1, 0, 0, 0⟩

/-- Concrete common properties with weight exponent mu_ = 1. -/
noncomputable def cpPos : STDPPLHomCommonProperties := ⟨1, 0, 0, 1⟩

/-- Concrete neuron parameters with a noise sequence of length 2. -/
def P1 : Parameters_ := ⟨1, 1, 0, 1, 1, 1, 1, 1, [1, 2]⟩

/-- Concrete propagator coefficients. -/
def V1 : Variables_ := ⟨1, 1, 1, 1, 1⟩

/-- Concrete neuron state with the noise cursor at 0. -/
def S1 : State_ := ⟨0, 0, 0, 0, 0⟩

/-- Concrete neuron state with the noise cursor at 5. -/
def S2 : State_ := ⟨0, 0, 0, 0, 5⟩

/-- Concrete neuron parameters with an empty noise sequence. -/
def P2 : Parameters_ := ⟨1, 1, 0, 1, 1, 1, 1, 1, []⟩

/-- Concrete dictionary that replaces the noise sequence while the parent
class validation fails. -/
def dBad : Dictionary := ⟨none, none, none, none, none, some [1], none, true, false⟩

/- ======================================================================
   Helper lemmas
   ====================================================================== -/

theorem depress_eq_max (w k : ℝ) (cp : STDPPLHomCommonProperties) :
    depress_ w k cp = max 0 (w - cp.lambda_ * cp.alpha_ * w * k) := by
  unfold depress_
  dsimp only
  split
  · exact (max_eq_right (le_of_lt (by assumption))).symm
  · exact (max_eq_left (not_lt.mp (by assumption))).symm

theorem depress_nonneg (w k : ℝ) (cp : STDPPLHomCommonProperties) :
    0 ≤ depress_ w k cp := by
  unfold depress_
  dsimp only
  split
  · exact le_of_lt (by assumption)
  · exact le_refl 0

theorem send_conn_weight_eq (c : STDPPLConnectionHom) (env : SendEnv)
    (cp : STDPPLHomCommonProperties) :
    (send c env cp).conn.weight_ =
      depress_ (sendFacilWeight c env cp)
        (env.getK (env.t_spike - (c.delay_ : ℝ) * env.msPerStep)) cp := rfl

/- ======================================================================
   Claim theorems
   ====================================================================== -/

/-- C1: for every synapse with weight at least 0 and any common parameters
(learning rate lambda_, asymmetry alpha_), after any number of send calls
the weight remains at least 0; and every depression step clamps its result
to max(0, new weight). -/
theorem send_weight_nonneg (cp : STDPPLHomCommonProperties) (envs : List SendEnv)
    (c : STDPPLConnectionHom) (h : 0 ≤ c.weight_) :
    0 ≤ (sendMany cp envs c).weight_
    ∧ ∀ w k, depress_ w k cp = max 0 (w - cp.lambda_ * cp.alpha_ * w * k) := by
  refine ⟨?_, fun w k => depress_eq_max w k cp⟩
  induction envs generalizing c with
  | nil => exact h
  | cons env rest ih =>
    rw [sendMany]
    exact ih (send c env cp).conn (depress_nonneg _ _ _)

/-- Witness for C1 at a concrete input. -/
theorem send_weight_nonneg_witness :
    0 ≤ c0.weight_
    ∧ (0 ≤ (sendMany cp0 [] c0).weight_
       ∧ ∀ w k, depress_ w k cp0 = max 0 (w - cp0.lambda_ * cp0.alpha_ * w * k)) :=
  ⟨by norm_num [c0], send_weight_nonneg cp0 [] c0 (by norm_num [c0])⟩

/-- C2: the depression step of send computes
max(0, w - lambda_ * alpha_ * w * v) where w is the weight after the
facilitation loop and v is the post-synaptic trace value queried at
t_spike - dendritic_delay; for weight 1, learning rate 1/10, alpha 1 and
trace value 2 the result is exactly 0.8. -/
theorem send_depression_formula :
    (∀ (c : STDPPLConnectionHom) (env : SendEnv) (cp : STDPPLHomCommonProperties),
      (send c env cp).conn.weight_ =
        max 0 (sendFacilWeight c env cp
          - cp.lambda_ * cp.alpha_ * sendFacilWeight c env cp
            * env.getK (env.t_spike - (c.delay_ : ℝ) * env.msPerStep)))
    ∧ depress_ 1 2 ⟨1, 1/10, 1, 1⟩ = 0.8 := by
  constructor
  · intro c env cp
    rw [send_conn_weight_eq, depress_eq_max]
  · rw [depress_eq_max]
    norm_num

/-- C3: one iteration of the potentiation replay of send skips the history
entry exactly when minus_dt = t_lastspike - (h.t_ + dendritic_delay) is 0,
under exact equality with no tolerance, and otherwise updates the weight to
w + lambda_ * w ^ mu_ * (Kplus * exp(minus_dt / tau_plus_)); over the empty
history the replay leaves the weight unchanged. -/
theorem facilitation_step_characterization :
    (∀ (cp : STDPPLHomCommonProperties) (tls dd K w : ℝ),
      facilitationLoop cp tls dd K [] w = w)
    ∧ ∀ (cp : STDPPLHomCommonProperties) (tls dd K : ℝ) (h : histentry)
        (rest : List histentry) (w : ℝ),
      facilitationLoop cp tls dd K (h :: rest) w =
        facilitationLoop cp tls dd K rest
          (if tls - (h.t_ + dd) = 0 then w
           else w + cp.lambda_ * w ^ cp.mu_
             * (K * Real.exp ((tls - (h.t_ + dd)) / cp.tau_plus_))) := by
  refine ⟨fun cp tls dd K w => rfl, fun cp tls dd K h rest w => ?_⟩
  by_cases hdt : tls - (h.t_ + dd) = 0
  · rw [facilitationLoop, if_pos hdt, if_pos hdt]
  · rw [facilitationLoop, if_neg hdt, if_neg hdt]
    rfl

/-- C5: after every send call the presynaptic trace Kplus_ equals
old trace * exp((t_lastspike - t_spike) / tau_plus_) + 1, and when the old
trace is nonnegative so is the new one. -/
theorem send_kplus_update (c : STDPPLConnectionHom) (env : SendEnv)
    (cp : STDPPLHomCommonProperties) (hK : 0 ≤ c.Kplus_) :
    (send c env cp).conn.Kplus_
      = c.Kplus_ * Real.exp ((env.t_lastspike - env.t_spike) / cp.tau_plus_) + 1
    ∧ 0 ≤ (send c env cp).conn.Kplus_ := by
  refine ⟨rfl, ?_⟩
  have h1 : 0 ≤ c.Kplus_ * Real.exp ((env.t_lastspike - env.t_spike) / cp.tau_plus_) :=
    mul_nonneg hK (Real.exp_nonneg _)
  show 0 ≤ c.Kplus_ * Real.exp ((env.t_lastspike - env.t_spike) / cp.tau_plus_) + 1
  linarith

/-- Witness for C5 at a concrete input. -/
theorem send_kplus_update_witness :
    0 ≤ c0.Kplus_
    ∧ ((send c0 env0 cp0).conn.Kplus_
        = c0.Kplus_ * Real.exp ((env0.t_lastspike - env0.t_spike) / cp0.tau_plus_) + 1
       ∧ 0 ≤ (send c0 env0 cp0).conn.Kplus_) :=
  ⟨le_refl 0, send_kplus_update c0 env0 cp0 (le_refl 0)⟩

theorem forwardBefore_append (L : List SendAction) :
    forwardBeforeTraceUpdate
      (L ++ [SendAction.depress, SendAction.forward, SendAction.traceUpdate]) := by
  refine ⟨L.length + 1, L.length + 2, by omega, ?_, ?_⟩
  · rw [List.get?_append_right (by omega)]
    have h1 : L.length + 1 - L.length = 1 := by omega
    rw [h1]
    rfl
  · rw [List.get?_append_right (by omega)]
    have h2 : L.length + 2 - L.length = 2 := by omega
    rw [h2]
    rfl

/-- C4 counterexample: in a concrete send call the forwarding of the event
does not occur after the trace update; the log of the executed statements
contains no trace update before any forwarding. -/
theorem send_forward_before_trace_cex :
    ¬ forwardAfterTraceUpdate (send c0 env0 cp0).log := by
  intro hcontra
  obtain ⟨i, j, hij, hi, hj⟩ := hcontra
  have hlog : (send c0 env0 cp0).log =
      [SendAction.depress, SendAction.forward, SendAction.traceUpdate] := rfl
  rw [hlog] at hi hj
  rcases i with _ | _ | _ | n <;> rcases j with _ | _ | _ | m <;> simp_all

/-- C4 amended: send performs the potentiation replay over the queried
history, then one depression step, then forwards the event with the updated
weight, unchanged delay and unchanged receptor port, and only after the
forwarding updates the presynaptic trace: the forwarding action occurs
strictly before the trace update action in the execution order. -/
theorem send_step_order (c : STDPPLConnectionHom) (env : SendEnv)
    (cp : STDPPLHomCommonProperties) :
    (send c env cp).log =
      facilLog env.t_lastspike ((c.delay_ : ℝ) * env.msPerStep)
        (env.getHistory (env.t_lastspike - (c.delay_ : ℝ) * env.msPerStep)
          (env.t_spike - (c.delay_ : ℝ) * env.msPerStep))
      ++ [SendAction.depress, SendAction.forward, SendAction.traceUpdate]
    ∧ forwardBeforeTraceUpdate (send c env cp).log
    ∧ (send c env cp).event.weight = (send c env cp).conn.weight_
    ∧ (send c env cp).event.delay = c.delay_
    ∧ (send c env cp).event.rport = c.rport_ := by
  refine ⟨rfl, ?_, rfl, rfl, rfl⟩
  exact forwardBefore_append _

/-- C8: with weight exponent mu_ = 0 a single potentiation pairing adds
exactly lambda_ * (K * exp(dt / tau_plus_)) to the weight, for every value
of the weight before the pairing. -/
theorem facilitate_mu_zero (cp : STDPPLHomCommonProperties) (hmu : cp.mu_ = 0)
    (w K dt : ℝ) :
    facilitate_ w (K * Real.exp (dt / cp.tau_plus_)) cp
      = w + cp.lambda_ * (K * Real.exp (dt / cp.tau_plus_)) := by
  unfold facilitate_
  rw [hmu, Real.rpow_zero, mul_one]

/-- Witness for C8 at a concrete input. -/
theorem facilitate_mu_zero_witness :
    cp0.mu_ = 0
    ∧ facilitate_ 1 (1 * Real.exp (0 / cp0.tau_plus_)) cp0
        = 1 + cp0.lambda_ * (1 * Real.exp (0 / cp0.tau_plus_)) :=
  ⟨rfl, facilitate_mu_zero cp0 rfl 1 1 0⟩

theorem facilitate_zero (cp : STDPPLHomCommonProperties) (hmu : cp.mu_ ≠ 0)
    (kp : ℝ) : facilitate_ 0 kp cp = 0 := by
  unfold facilitate_
  rw [Real.zero_rpow hmu]
  ring

theorem depress_zero (cp : STDPPLHomCommonProperties) (km : ℝ) :
    depress_ 0 km cp = 0 := by
  rw [depress_eq_max]
  norm_num

theorem facilitationLoop_zero (cp : STDPPLHomCommonProperties) (hmu : cp.mu_ ≠ 0)
    (tls dd K : ℝ) (hist : List histentry) :
    facilitationLoop cp tls dd K hist 0 = 0 := by
  induction hist with
  | nil => rfl
  | cons h rest ih =>
    rw [facilitationLoop]
    split
    · exact ih
    · rw [facilitate_zero cp hmu]
      exact ih

/-- C10: a synapse with weight exactly 0 and weight exponent mu_ > 0 keeps
weight 0 through a send call, for every post-synaptic history and trace:
each potentiation pairing adds lambda_ * 0 ^ mu_ * kplus = 0 and depression
of a zero weight gives 0, so zero weight is a fixed point of send. -/
theorem send_zero_weight_fixed_point (c : STDPPLConnectionHom) (env : SendEnv)
    (cp : STDPPLHomCommonProperties) (hmu : 0 < cp.mu_) (hw : c.weight_ = 0) :
    (send c env cp).conn.weight_ = 0
    ∧ (∀ kp, facilitate_ 0 kp cp = 0)
    ∧ ∀ km, depress_ 0 km cp = 0 := by
  have hne : cp.mu_ ≠ 0 := ne_of_gt hmu
  refine ⟨?_, fun kp => facilitate_zero cp hne kp, fun km => depress_zero cp km⟩
  rw [send_conn_weight_eq]
  have hfw : sendFacilWeight c env cp = 0 := by
    unfold sendFacilWeight
    rw [hw]
    exact facilitationLoop_zero cp hne _ _ _ _
  rw [hfw, depress_zero]

/-- Witness for C10 at a concrete input. -/
theorem send_zero_weight_fixed_point_witness :
    (0 < cpPos.mu_ ∧ cZero.weight_ = 0)
    ∧ ((send cZero env0 cpPos).conn.weight_ = 0
       ∧ (∀ kp, facilitate_ 0 kp cpPos = 0)
       ∧ ∀ km, depress_ 0 km cpPos = 0) :=
  ⟨⟨by norm_num [cpPos], rfl⟩,
    send_zero_weight_fixed_point cZero env0 cpPos (by norm_num [cpPos]) rfl⟩

theorem step_ok (P : Parameters_) (V : Variables_) (input current : ℚ)
    (s : State_) (hlt : s.position_ < P.noise_.length) :
    ∃ s1 b, step P V input current s = Except.ok (s1, b)
      ∧ s1.position_ = s.position_ + 1 := by
  unfold step
  rw [List.get?_eq_get hlt]
  exact ⟨_, _, rfl, rfl⟩

theorem step_exhaust (P : Parameters_) (V : Variables_) (input current : ℚ)
    (s : State_) (hge : P.noise_.length ≤ s.position_) :
    step P V input current s = Except.error NestError.NoiseExhausted := by
  unfold step
  rw [List.get?_eq_none.mpr hge]

theorem stepN_ok (P : Parameters_) (V : Variables_) (input current : ℚ)
    (k : ℕ) :
    ∀ s : State_, s.position_ + k ≤ P.noise_.length →
      ∃ s', stepN P V input current k s = Except.ok s'
        ∧ s'.position_ = s.position_ + k := by
  induction k with
  | zero => exact fun s _ => ⟨s, rfl, rfl⟩
  | succ n ih =>
    intro s hs
    have hlt : s.position_ < P.noise_.length := by omega
    obtain ⟨s1, b, hstep, hpos⟩ := step_ok P V input current s hlt
    obtain ⟨s', h1, h2⟩ := ih s1 (by omega)
    refine ⟨s', ?_, by omega⟩
    simp only [stepN, hstep]
    exact h1

theorem stepN_exhaust (P : Parameters_) (V : Variables_) (input current : ℚ)
    (k : ℕ) :
    ∀ s : State_, s.position_ + k = P.noise_.length →
      stepN P V input current (k + 1) s = Except.error NestError.NoiseExhausted := by
  induction k with
  | zero =>
    intro s hs
    have hstep := step_exhaust P V input current s (by omega)
    simp only [stepN, hstep]
  | succ n ih =>
    intro s hs
    have hlt : s.position_ < P.noise_.length := by omega
    obtain ⟨s1, b, hstep, hpos⟩ := step_ok P V input current s hlt
    have hred : stepN P V input current (n + 1 + 1) s
        = stepN P V input current (n + 1) s1 := by
      simp only [stepN, hstep]
    rw [hred]
    exact ih s1 (by omega)

/-- C7: with a configured noise sequence of length N and the cursor at 0,
the first N step calls succeed, consuming the noise values in index order
with the cursor advancing by one per step, and the step call number N + 1
fails with NoiseExhausted. -/
theorem noise_cursor_exhaustion (P : Parameters_) (V : Variables_)
    (input current : ℚ) (s : State_) (h0 : s.position_ = 0) :
    (∀ k, k ≤ P.noise_.length →
       ∃ s', stepN P V input current k s = Except.ok s' ∧ s'.position_ = k)
    ∧ stepN P V input current (P.noise_.length + 1) s
        = Except.error NestError.NoiseExhausted := by
  constructor
  · intro k hk
    obtain ⟨s', h1, h2⟩ := stepN_ok P V input current k s (by omega)
    exact ⟨s', h1, by omega⟩
  · exact stepN_exhaust P V input current P.noise_.length s (by omega)

/-- Witness for C7 at a concrete input. -/
theorem noise_cursor_exhaustion_witness :
    S1.position_ = 0
    ∧ ((∀ k, k ≤ P1.noise_.length →
          ∃ s', stepN P1 V1 1 1 k S1 = Except.ok s' ∧ s'.position_ = k)
       ∧ stepN P1 V1 1 1 (P1.noise_.length + 1) S1
           = Except.error NestError.NoiseExhausted) :=
  ⟨rfl, noise_cursor_exhaustion P1 V1 1 1 S1 rfl⟩

/-- C9: connect_sender for SpikeEvent succeeds with port 0 exactly when the
requested receptor type is 0, throws UnknownReceptorType for every other
receptor type, and the connection setup path check_connection is exactly
this validator; the send operation carries no receptor validation and
cannot fail. -/
theorem connect_sender_receptor (rt : ℤ) :
    (connect_sender_SpikeEvent rt = Except.ok 0 ↔ rt = 0)
    ∧ (rt ≠ 0 → connect_sender_SpikeEvent rt
         = Except.error (NestError.UnknownReceptorType rt))
    ∧ check_connection rt = connect_sender_SpikeEvent rt := by
  refine ⟨?_, fun h => ?_, rfl⟩
  · unfold connect_sender_SpikeEvent
    by_cases h : rt = 0
    · simp [h]
    · simp [h]
  · unfold connect_sender_SpikeEvent
    simp [h]

/-- Witness for C9 at a concrete input. -/
theorem connect_sender_receptor_witness :
    (5 : ℤ) ≠ 0
    ∧ connect_sender_SpikeEvent 5
        = Except.error (NestError.UnknownReceptorType 5) :=
  ⟨by decide, (connect_sender_receptor 5).2.1 (by decide)⟩

/-- C6 counterexample: a concrete update that replaces the noise sequence
and then fails the parent class validation leaves the live state with its
noise cursor reset to 0, so the live (P_, S_) pair is not fully intact on
a failed set_status. -/
theorem set_status_cursor_cex :
    (set_status dBad P2 S2).1 = Except.error NestError.BadProperty
    ∧ (set_status dBad P2 S2).2.2 ≠ S2 := by
  constructor
  · decide
  · decide

/-- C6 amended: if any validation during set_status fails, the parameters
P_ are left fully intact and the state S_ is left intact in every field
except possibly the noise cursor, which Parameters_::set (receiving the
live S_ by reference) may have reset to 0 when the dictionary replaces the
noise sequence; the live values are replaced only after every validation
has succeeded. -/
theorem set_status_rollback (d : Dictionary) (P : Parameters_) (S : State_)
    (e : NestError) (herr : (set_status d P S).1 = Except.error e) :
    (set_status d P S).2.1 = P
    ∧ ((set_status d P S).2.2 = S
       ∨ (d.noise_upd.isSome = true
          ∧ (set_status d P S).2.2 = { S with position_ := 0 })) := by
  have hS1 : (Parameters_.set d P S).2 = S
      ∨ (d.noise_upd.isSome = true
         ∧ (Parameters_.set d P S).2 = { S with position_ := 0 }) := by
    by_cases hn : d.noise_upd.isSome
    · refine Or.inr ⟨hn, ?_⟩
      show (if d.noise_upd.isSome then { S with position_ := 0 } else S) = _
      rw [if_pos hn]
    · refine Or.inl ?_
      show (if d.noise_upd.isSome then { S with position_ := 0 } else S) = S
      rw [if_neg hn]
  unfold set_status at herr ⊢
  cases h1 : (Parameters_.set d P S).1 with
  | error e1 =>
    simp only [h1] at herr ⊢
    exact ⟨by trivial, hS1⟩
  | ok ptmp =>
    simp only [h1] at herr ⊢
    cases h2 : State_.set d (Parameters_.set d P S).2 with
    | error e2 =>
      simp only [h2] at herr ⊢
      exact ⟨by trivial, hS1⟩
    | ok stmp =>
      simp only [h2] at herr ⊢
      cases h3 : archivingSetStatus d with
      | error e3 =>
        simp only [h3] at herr ⊢
        exact ⟨by trivial, hS1⟩
      | ok u =>
        simp only [h3] at herr
        exact absurd herr (by simp)

/-- Witness for the amended C6 at a concrete input. -/
theorem set_status_rollback_witness :
    (set_status dBad P2 S2).1 = Except.error NestError.BadProperty
    ∧ ((set_status dBad P2 S2).2.1 = P2
       ∧ ((set_status dBad P2 S2).2.2 = S2
          ∨ (dBad.noise_upd.isSome = true
             ∧ (set_status dBad P2 S2).2.2 = { S2 with position_ := 0 }))) :=
  ⟨by decide, set_status_rollback dBad P2 S2 NestError.BadProperty (by decide)⟩
